import Mathlib

/-!
Verification of the nsg-trajectory-analysis scripts.

The repository is a set of Python scripts that read line-delimited JSON
episode logs and compute descriptive statistics.  This file embeds the
data model (JSON values, episodes) and the operations the specification
talks about: the canonical-form encoder `make_hashable` of
`repeated_actions.py`, the per-episode repetition counter, the outcome
classifiers of `summary.py`, `count_episodes.py`, `repeated_actions.py`,
`find_short_losses.py`, `check_all_early_terminations.py` and
`json_to_csv.py`, and the per-line / per-file processing loops of those
scripts together with `analyze_jsonl.py` and
`investigate_end_condition.py`, and proves or refutes the specified
properties.
-/

/-- A parsed JSON value, as produced by `json.loads`: null, boolean,
integer, floating-point number, string, ordered sequence, or mapping
from string to value.  A mapping is represented by its ordered list of
key/value pairs (Python dicts preserve insertion order); well-formed
mappings have unique keys (`WF` below). Numbers are modelled exactly:
Python ints as `Int`, floats as the rationals they denote. -/
inductive JSON where
  | null : JSON
  | bool (b : Bool) : JSON
  | int (n : Int) : JSON
  | float (q : ℚ) : JSON
  | str (s : String) : JSON
  | arr (xs : List JSON) : JSON
  | obj (xs : List (String × JSON)) : JSON

/-- A Python hashable value as returned by `make_hashable`: a primitive
or a tuple of hashable values.  Tuples are represented as cons-chains
(`tnil`/`tcons`) so that equality is decidable by derivation; the Python
tuple `(c1, ..., cn)` is `Canon.ofList [c1, ..., cn]`. -/
inductive Canon where
  | null : Canon
  | bool (b : Bool) : Canon
  | int (n : Int) : Canon
  | float (q : ℚ) : Canon
  | str (s : String) : Canon
  | tnil : Canon
  | tcons (hd : Canon) (tl : Canon) : Canon
deriving DecidableEq

/-- The Python tuple built from a list of hashable values. -/
def Canon.ofList : List Canon → Canon
  | [] => .tnil
  | c :: cs => .tcons c (Canon.ofList cs)

/-- Python string comparison `s < t`: lexicographic on the sequences of
code points. -/
def keyLT (s t : String) : Prop := List.Lex (· < ·) s.data t.data

instance : DecidableRel keyLT := fun s t =>
  inferInstanceAs (Decidable (List.Lex (· < ·) s.data t.data))

/-- The order in which Python `sorted` arranges the `(key, value)` pairs
of a dict: by key (keys of a dict are unique, so the second components
are never compared). -/
def pairLE (p q : String × Canon) : Prop := keyLT p.1 q.1 ∨ p.1 = q.1

instance : DecidableRel pairLE := fun p q =>
  inferInstanceAs (Decidable (keyLT p.1 q.1 ∨ p.1 = q.1))

/-- `sorted(...)` on a list of `(key, canonical value)` pairs. -/
def sortPairs (l : List (String × Canon)) : List (String × Canon) :=
  List.insertionSort pairLE l

mutual
/-- `repeated_actions.make_hashable`: recursively convert a JSON-like
object to a hashable representation.  A dict becomes the sorted tuple of
`(key, make_hashable(value))` pairs, a list becomes the tuple of the
converted elements, primitives are returned unchanged.  (The Python
`str(obj)` fallback is unreachable for parsed JSON values, which is the
domain of this embedding.) -/
def make_hashable : JSON → Canon
  | .null => .null
  | .bool b => .bool b
  | .int n => .int n
  | .float q => .float q
  | .str s => .str s
  | .arr xs => Canon.ofList (mhList xs)
  | .obj xs =>
      Canon.ofList ((sortPairs (mhPairs xs)).map (fun p => Canon.ofList [.str p.1, p.2]))

/-- `make_hashable` mapped over the items of a list. -/
def mhList : List JSON → List Canon
  | [] => []
  | x :: xs => make_hashable x :: mhList xs

/-- `(k, make_hashable v)` for each pair of a dict (insertion order). -/
def mhPairs : List (String × JSON) → List (String × Canon)
  | [] => []
  | p :: ps => (p.1, make_hashable p.2) :: mhPairs ps
end

/-- `repeated_actions.action_to_hashable`: convert an action dict to a
hashable representation (delegates to `make_hashable`). -/
def action_to_hashable (action : JSON) : Canon := make_hashable action

example : make_hashable (.obj [("b", .int 2), ("a", .int 1)]) =
    .ofList [.ofList [.str "a", .int 1], .ofList [.str "b", .int 2]] := by decide

example : make_hashable (.obj [("a", .int 1), ("b", .int 2)]) =
    make_hashable (.obj [("b", .int 2), ("a", .int 1)]) := by decide

example : make_hashable (.arr [.int 1, .int 2]) ≠ make_hashable (.arr [.int 2, .int 1]) := by
  decide

mutual
/-- Data-model well-formedness (spec section 3): every mapping occurring
in the value has unique keys. -/
def WF : JSON → Prop
  | .null => True
  | .bool _ => True
  | .int _ => True
  | .float _ => True
  | .str _ => True
  | .arr xs => WFList xs
  | .obj xs => (xs.map Prod.fst).Nodup ∧ WFPairs xs

/-- Well-formedness of each element of a sequence. -/
def WFList : List JSON → Prop
  | [] => True
  | x :: xs => WF x ∧ WFList xs

/-- Well-formedness of each value of a mapping. -/
def WFPairs : List (String × JSON) → Prop
  | [] => True
  | p :: ps => WF p.2 ∧ WFPairs ps
end

mutual
/-- Structural equality of JSON values in the sense of the spec: same
keys/values regardless of key insertion order, with sequence element
order significant.  Two mappings are structurally equal when they have
the same number of entries and every entry of the first has a
structurally equal entry under the same key in the second (for mappings
with unique keys this is exactly equality up to reordering of entries). -/
def StructEq : JSON → JSON → Prop
  | .null, .null => True
  | .bool a, .bool b => a = b
  | .int a, .int b => a = b
  | .float a, .float b => a = b
  | .str a, .str b => a = b
  | .arr xs, .arr ys => SEList xs ys
  | .obj xs, .obj ys => xs.length = ys.length ∧ SEObj xs ys
  | _, _ => False

/-- Pointwise structural equality of two sequences. -/
def SEList : List JSON → List JSON → Prop
  | [], [] => True
  | x :: xs, y :: ys => StructEq x y ∧ SEList xs ys
  | _, _ => False

/-- Every entry of the first list has a structurally equal entry under
the same key in the second list. -/
def SEObj : List (String × JSON) → List (String × JSON) → Prop
  | [], _ => True
  | p :: ps, ys => (∃ w, (p.1, w) ∈ ys ∧ StructEq p.2 w) ∧ SEObj ps ys
end

/-- Structure-respecting induction over JSON values. -/
theorem JSON.inductionOn {motive : JSON → Prop}
    (hnull : motive .null) (hbool : ∀ b, motive (.bool b))
    (hint : ∀ n, motive (.int n)) (hfloat : ∀ q, motive (.float q))
    (hstr : ∀ s, motive (.str s))
    (harr : ∀ xs, (∀ x ∈ xs, motive x) → motive (.arr xs))
    (hobj : ∀ xs, (∀ p ∈ xs, motive (Prod.snd p)) → motive (.obj xs)) :
    ∀ j, motive j
  | .null => hnull
  | .bool b => hbool b
  | .int n => hint n
  | .float q => hfloat q
  | .str s => hstr s
  | .arr xs => harr xs (fun x hx =>
      JSON.inductionOn hnull hbool hint hfloat hstr harr hobj x)
  | .obj xs => hobj xs (fun p hp =>
      JSON.inductionOn hnull hbool hint hfloat hstr harr hobj p.2)
termination_by j => sizeOf j
decreasing_by
  · have h1 : sizeOf x < sizeOf xs := List.sizeOf_lt_of_mem hx
    simp only [JSON.arr.sizeOf_spec]
    omega
  · have h1 : sizeOf p < sizeOf xs := List.sizeOf_lt_of_mem hp
    have h2 : sizeOf p.2 < sizeOf p := by
      cases p with
      | mk a b => simp only [Prod.mk.sizeOf_spec]; omega
    simp only [JSON.obj.sizeOf_spec]
    omega

theorem string_eq_of_data_eq {s t : String} (h : s.data = t.data) : s = t := by
  cases s
  cases t
  exact congrArg String.mk h

theorem keyLT_trans {a b c : String} (h1 : keyLT a b) (h2 : keyLT b c) : keyLT a c :=
  (inferInstance : IsTrans (List Char) (List.Lex (· < ·))).trans _ _ _ h1 h2

instance : IsTrans (String × Canon) pairLE where
  trans p q r hpq hqr := by
    rcases hpq with h1 | h1 <;> rcases hqr with h2 | h2
    · exact Or.inl (keyLT_trans h1 h2)
    · exact Or.inl (h2 ▸ h1)
    · exact Or.inl (h1 ▸ h2)
    · exact Or.inr (h1.trans h2)

instance : IsTotal (String × Canon) pairLE where
  total p q := by
    rcases (inferInstance :
        IsTrichotomous (List Char) (List.Lex (· < ·))).trichotomous p.1.data q.1.data with
      h | h | h
    · exact Or.inl (Or.inl h)
    · exact Or.inl (Or.inr (string_eq_of_data_eq h))
    · exact Or.inr (Or.inl h)

/-- Strict version of `pairLE`: the first key is strictly below the
second. -/
def pairLT (p q : String × Canon) : Prop := keyLT p.1 q.1

instance : IsAntisymm (String × Canon) pairLT where
  antisymm p q hpq hqp := absurd hqp (IsAsymm.asymm (r := List.Lex (· < ·)) _ _ hpq)

/-- A list of pairs sorted by `pairLE` whose keys are distinct is sorted
by the strict key order. -/
theorem sorted_pairLT_of_sorted_pairLE {l : List (String × Canon)}
    (hs : List.Sorted pairLE l) (hnd : (l.map Prod.fst).Nodup) :
    List.Sorted pairLT l := by
  induction l with
  | nil => simp
  | cons p l ih =>
    simp only [List.sorted_cons] at hs ⊢
    simp only [List.map_cons, List.nodup_cons] at hnd
    refine ⟨fun q hq => ?_, ih hs.2 hnd.2⟩
    rcases hs.1 q hq with h | h
    · exact h
    · exact absurd (h ▸ List.mem_map_of_mem Prod.fst hq) hnd.1

/-- Sorting two permutations of the same duplicate-free-key pair list
yields the same result. -/
theorem sortPairs_eq_of_perm {l₁ l₂ : List (String × Canon)} (h : l₁.Perm l₂)
    (hnd : (l₁.map Prod.fst).Nodup) : sortPairs l₁ = sortPairs l₂ := by
  have hp : (sortPairs l₁).Perm (sortPairs l₂) :=
    ((List.perm_insertionSort pairLE l₁).trans h).trans
      (List.perm_insertionSort pairLE l₂).symm
  have hnd₁ : ((sortPairs l₁).map Prod.fst).Nodup :=
    (((List.perm_insertionSort pairLE l₁).map Prod.fst).nodup_iff).mpr hnd
  have hnd₂ : ((sortPairs l₂).map Prod.fst).Nodup := by
    have h2 : (l₂.map Prod.fst).Nodup := ((h.map Prod.fst).nodup_iff).mp hnd
    exact (((List.perm_insertionSort pairLE l₂).map Prod.fst).nodup_iff).mpr h2
  exact List.eq_of_perm_of_sorted hp
    (sorted_pairLT_of_sorted_pairLE (List.sorted_insertionSort pairLE l₁) hnd₁)
    (sorted_pairLT_of_sorted_pairLE (List.sorted_insertionSort pairLE l₂) hnd₂)

theorem mhList_eq_map (xs : List JSON) : mhList xs = xs.map make_hashable := by
  induction xs with
  | nil => simp [mhList]
  | cons x xs ih => simp [mhList, ih]

theorem mhPairs_eq_map (xs : List (String × JSON)) :
    mhPairs xs = xs.map (fun p => (p.1, make_hashable p.2)) := by
  induction xs with
  | nil => simp [mhPairs]
  | cons p ps ih => simp [mhPairs, ih]

theorem mhPairs_keys (xs : List (String × JSON)) :
    (mhPairs xs).map Prod.fst = xs.map Prod.fst := by
  induction xs with
  | nil => simp [mhPairs]
  | cons p ps ih => simp [mhPairs, ih]

theorem mhPairs_length (xs : List (String × JSON)) :
    (mhPairs xs).length = xs.length := by
  rw [mhPairs_eq_map]; simp

theorem seObj_mem {xs ys : List (String × JSON)} (h : SEObj xs ys) :
    ∀ p ∈ xs, ∃ w, (p.1, w) ∈ ys ∧ StructEq p.2 w := by
  induction xs with
  | nil => simp
  | cons q qs ih =>
    simp only [SEObj] at h
    intro p hp
    rcases List.mem_cons.mp hp with rfl | hp
    · exact h.1
    · exact ih h.2 p hp

theorem wfPairs_mem {xs : List (String × JSON)} (h : WFPairs xs) :
    ∀ p ∈ xs, WF p.2 := by
  induction xs with
  | nil => simp
  | cons q qs ih =>
    simp only [WFPairs] at h
    intro p hp
    rcases List.mem_cons.mp hp with rfl | hp
    · exact h.1
    · exact ih h.2 p hp

theorem seList_mh {xs : List JSON}
    (ih : ∀ x ∈ xs, WF x → ∀ b, StructEq x b → make_hashable x = make_hashable b)
    (hwf : WFList xs) : ∀ {ys : List JSON}, SEList xs ys → mhList xs = mhList ys := by
  induction xs with
  | nil =>
    intro ys h
    cases ys with
    | nil => rfl
    | cons y ys => simp [SEList] at h
  | cons x xs ihl =>
    intro ys h
    cases ys with
    | nil => simp [SEList] at h
    | cons y ys =>
      simp only [SEList] at h
      simp only [WFList] at hwf
      simp only [mhList]
      rw [ih x (by simp) hwf.1 y h.1,
        ihl (fun z hz => ih z (by simp [hz])) hwf.2 h.2]

/-- Canonicalization respects structural equality: on well-formed values
(unique mapping keys), structurally equal JSON values have equal
canonical keys. -/
theorem make_hashable_eq_of_structEq :
    ∀ a : JSON, WF a → ∀ b : JSON, StructEq a b →
      make_hashable a = make_hashable b := by
  refine JSON.inductionOn ?_ ?_ ?_ ?_ ?_ ?_ ?_
  · intro _ b h
    cases b <;> simp_all [StructEq]
  · intro a _ b h
    cases b <;> simp_all [StructEq]
  · intro a _ b h
    cases b <;> simp_all [StructEq]
  · intro a _ b h
    cases b <;> simp_all [StructEq]
  · intro a _ b h
    cases b <;> simp_all [StructEq]
  · intro xs ih hwf b h
    cases b <;> simp only [StructEq] at h
    case arr ys =>
      simp only [WF] at hwf
      simp only [make_hashable]
      exact congrArg Canon.ofList (seList_mh ih hwf h)
  · intro xs ih hwf b h
    cases b <;> simp only [StructEq] at h
    case obj ys =>
      simp only [WF] at hwf
      -- every canonical pair of xs occurs among the canonical pairs of ys
      have hsub : mhPairs xs ⊆ mhPairs ys := by
        intro e he
        rw [mhPairs_eq_map] at he
        rcases List.mem_map.mp he with ⟨p, hp, rfl⟩
        rcases seObj_mem h.2 p hp with ⟨w, hw, hse⟩
        have hmh : make_hashable p.2 = make_hashable w :=
          ih p hp (wfPairs_mem hwf.2 p hp) w hse
        rw [mhPairs_eq_map]
        exact List.mem_map.mpr ⟨(p.1, w), hw, by simp [hmh]⟩
      have hnd : (mhPairs xs).Nodup :=
        List.Nodup.of_map Prod.fst (by rw [mhPairs_keys]; exact hwf.1)
      have hlen : (mhPairs ys).length ≤ (mhPairs xs).length := by
        rw [mhPairs_length, mhPairs_length, h.1]
      have hperm : (mhPairs xs).Perm (mhPairs ys) :=
        (hnd.subperm hsub).perm_of_length_le hlen
      simp only [make_hashable]
      rw [sortPairs_eq_of_perm hperm (by rw [mhPairs_keys]; exact hwf.1)]

theorem except_bind_ok {α β : Type} (a : α) (f : α → Except String β) :
    (Except.ok a >>= f) = f a := rfl

theorem except_bind_err {α β : Type} (e : String) (f : α → Except String β) :
    ((Except.error e : Except String α) >>= f) = Except.error e := rfl

theorem except_pure_def {α : Type} (a : α) :
    (pure a : Except String α) = Except.ok a := rfl

/-- Python `x.get(k)`: `none` when the key is missing, `AttributeError`
when `x` is not a dict. -/
def jsonGet (j : JSON) (k : String) : Except String (Option JSON) :=
  match j with
  | .obj l => .ok ((l.find? (fun p => p.1 == k)).map Prod.snd)
  | _ => .error "AttributeError"

/-- Python `x.get(k, default)`. -/
def jsonGetD (j : JSON) (k : String) (d : JSON) : Except String JSON :=
  (jsonGet j k).map (fun o => o.getD d)

/-- Using a JSON value as a sequence (`len(x)`, iteration, `x[-1]`):
`TypeError` unless it is a list.  (The scripts only ever apply this to
trajectory fields, which are lists in well-formed logs.) -/
def asList : JSON → Except String (List JSON)
  | .arr xs => .ok xs
  | _ => .error "TypeError"

/-- Using a JSON value as a number (`sum`, comparison with `50`):
Python accepts ints, floats and bools, and raises `TypeError`
otherwise. -/
def asNum : JSON → Except String ℚ
  | .int n => .ok n
  | .float q => .ok q
  | .bool b => .ok (if b then 1 else 0)
  | _ => .error "TypeError"

/-- `summary.py` lines 58-64: an episode is a win when the rewards list
is non-empty (truthy) and its last element is at least 50. -/
def summaryIsWin (rewards : List ℚ) : Bool :=
  match rewards.getLast? with
  | none => false
  | some r => decide (50 ≤ r)

/-- `count_episodes.py` lines 47-56: outcome from the final reward, with
`no_action` when there are no rewards. -/
def ceOutcome (rewards : List ℚ) : String :=
  match rewards.getLast? with
  | some r => if 50 ≤ r then "win" else "loss"
  | none => "no_action"

/-- `repeated_actions.py` line 114: `is_win = rewards and rewards[-1] >= 50`
(over an already-numeric rewards list). -/
def raIsWin (rewards : List ℚ) : Bool :=
  match rewards.getLast? with
  | none => false
  | some r => decide (50 ≤ r)

/-- `find_short_losses.py` lines 34-37: a loss has a final reward that
exists and is strictly below 50. -/
def fslIsLoss (rewards : List ℚ) : Bool :=
  match rewards.getLast? with
  | none => false
  | some r => decide (r < 50)

/-- `repeated_actions.py` line 114 over the raw rewards JSON: truthiness
of the list, then conversion of the last element for the comparison
(`TypeError` if it is not a number). -/
def raIsWinJ (rewardsJ : JSON) : Except String Bool := do
  let rs ← asList rewardsJ
  match rs.getLast? with
  | none => return false
  | some rJ => do
      let r ← asNum rJ
      return decide (50 ≤ r)

/-- Per-episode record built by `repeated_actions.analyze_repeated_actions`
(lines 101-129). -/
structure RepeatStats where
  total_actions : Nat
  unique_actions : Nat
  num_repeated_actions : Nat
  total_repetitions : Nat
  repeat_percentage : ℚ
  is_win : Bool
deriving DecidableEq

/-- The canonical keys of the actions of one episode, in order
(`action_to_hashable(action)` for each action, lines 104-106). -/
def actionKeys (actions : List JSON) : List Canon :=
  actions.map action_to_hashable

/-- The `Counter` of lines 103-106, as its list of (distinct key, count)
entries. -/
def actionCounter (actions : List JSON) : List (Canon × Nat) :=
  (actionKeys actions).dedup.map (fun k => (k, (actionKeys actions).count k))

/-- Lines 101-124 of `repeated_actions.py`: the per-episode statistics
computed from the action counter and the win flag. -/
def repeatStatsOf (actions : List JSON) (is_win : Bool) : RepeatStats :=
  let counts := (actionCounter actions).map Prod.snd
  let reps := ((counts.filter (fun c => 1 < c)).map (fun c => c - 1)).sum
  { total_actions := actions.length
    unique_actions := (actionCounter actions).length
    num_repeated_actions := (counts.filter (fun c => 1 < c)).length
    total_repetitions := reps
    repeat_percentage :=
      if 0 < actions.length then (reps : ℚ) / (actions.length : ℚ) * 100 else 0
    is_win := is_win }

/-- Lines 92-137 of `repeated_actions.py`: per-line analysis after a
successful parse.  `none` means the episode was skipped for having no
actions; an error is any exception (caught by the caller). -/
def raAnalyzeLine (episode : JSON) : Except String (Option RepeatStats) := do
  let trajectory ← jsonGetD episode "trajectory" (.obj [])
  let actionsJ ← jsonGetD trajectory "actions" (.arr [])
  let rewardsJ ← jsonGetD trajectory "rewards" (.arr [])
  let actions ← asList actionsJ
  if actions.length = 0 then return none
  let is_win ← raIsWinJ rewardsJ
  return some (repeatStatsOf actions is_win)

/-- One iteration of the per-line loop of `analyze_repeated_actions`
(lines 86-148): parse errors and processing errors are caught and leave
the accumulated episode details unchanged. -/
def raProcessLine (acc : List RepeatStats) (line : Except String JSON) :
    List RepeatStats :=
  match line with
  | .error _ => acc
  | .ok episode =>
    match raAnalyzeLine episode with
    | .error _ => acc
    | .ok none => acc
    | .ok (some stats) => acc ++ [stats]

/-- Per-episode record built by `summary.analyze_episodes` (lines 48-74).
(The host/network set sizes of other scripts are not recorded here;
`summary.py` does not compute them.) -/
structure SummaryEpisode where
  num_actions : Nat
  num_states : Nat
  total_reward : ℚ
  final_reward : Option ℚ
  final_action : Option JSON
  agent_name : Option JSON
  agent_role : Option JSON
  outcome : String
  loss_type : Option String

/-- Lines 48-74 of `summary.py`: the episode record and its win/loss
classification (including the loss categorization by
`step_limit_threshold`), from the already-extracted fields. -/
def summaryClassify (stepLimit : Nat) (numActions numStates : Nat)
    (rewards : List ℚ) (finalAction agentName agentRole : Option JSON) :
    SummaryEpisode :=
  let base : SummaryEpisode :=
    { num_actions := numActions
      num_states := numStates
      total_reward := if rewards.isEmpty then 0 else rewards.sum
      final_reward := rewards.getLast?
      final_action := finalAction
      agent_name := agentName
      agent_role := agentRole
      outcome := ""
      loss_type := none }
  if summaryIsWin rewards then
    { base with outcome := "win" }
  else
    { base with
      outcome := "loss"
      loss_type :=
        some (if stepLimit ≤ numActions then "step_limit" else "invalid_actions") }

/-- Lines 37-74 of `summary.py`: per-line analysis after a successful
parse.  `none` means the episode was skipped for having no actions. -/
def summaryAnalyzeLine (stepLimit : Nat) (episode : JSON) :
    Except String (Option SummaryEpisode) := do
  let trajectory ← jsonGetD episode "trajectory" (.obj [])
  let actionsJ ← jsonGetD trajectory "actions" (.arr [])
  let rewardsJ ← jsonGetD trajectory "rewards" (.arr [])
  let statesJ ← jsonGetD trajectory "states" (.arr [])
  let actions ← asList actionsJ
  if actions.length = 0 then return none
  let states ← asList statesJ
  let rewardsL ← asList rewardsJ
  let rewards ← rewardsL.mapM asNum
  let finalAction ←
    match actions.getLast? with
    | some a => jsonGet a "action_type"
    | none => pure none
  let agentName ← jsonGet episode "agent_name"
  let agentRole ← jsonGet episode "agent_role"
  return some (summaryClassify stepLimit actions.length states.length rewards
    finalAction agentName agentRole)

/-- One iteration of the per-line loop of `summary.analyze_episodes`
(lines 32-77): parse errors and processing errors are caught and leave
the accumulated episode list unchanged. -/
def summaryProcessLine (stepLimit : Nat) (acc : List SummaryEpisode)
    (line : Except String JSON) : List SummaryEpisode :=
  match line with
  | .error _ => acc
  | .ok episode =>
    match summaryAnalyzeLine stepLimit episode with
    | .error _ => acc
    | .ok none => acc
    | .ok (some d) => acc ++ [d]

/-- Per-episode statistics of `count_episodes.analyze_episode`
(lines 14-84).  The sizes of the host/network sets extracted from the
final state are not recorded (no property mentions them); the extraction
itself is modelled by `hostsCheck` so that its failure modes are kept. -/
structure CEStats where
  num_states : Nat
  num_actions : Nat
  num_rewards : Nat
  total_reward : ℚ
  end_reason : Option JSON
  agent_name : Option JSON
  agent_role : Option JSON
  outcome : String
  final_reward : Option ℚ
  final_action : Option JSON

/-- Lines 60-76 of `count_episodes.py`: walking the final state to
collect controlled/known hosts and networks.  Raises (`Except.error`)
exactly where Python would: a non-dict final state, a non-list value
under the three keys, or a non-dict host/network entry. -/
def hostsCheck (states : List JSON) : Except String Unit := do
  match states.getLast? with
  | none => return ()
  | some finalState => do
      let ch ← asList (← jsonGetD finalState "controlled_hosts" (.arr []))
      let _ ← ch.mapM (fun h => jsonGet h "ip")
      let kh ← asList (← jsonGetD finalState "known_hosts" (.arr []))
      let _ ← kh.mapM (fun h => jsonGet h "ip")
      let kn ← asList (← jsonGetD finalState "known_networks" (.arr []))
      let _ ← kn.mapM (fun n => do
        let _ ← jsonGet n "ip"
        jsonGet n "mask")
      return ()

/-- `count_episodes.analyze_episode` (lines 14-84): extract key
statistics from one parsed episode; any Python exception along the way
becomes an `Except.error`. -/
def analyze_episode (episode_data : JSON) : Except String CEStats := do
  let endReason ← jsonGet episode_data "end_reason"
  let agentName ← jsonGet episode_data "agent_name"
  let agentRole ← jsonGet episode_data "agent_role"
  let trajectory ← jsonGetD episode_data "trajectory" (.obj [])
  let states ← asList (← jsonGetD trajectory "states" (.arr []))
  let actions ← asList (← jsonGetD trajectory "actions" (.arr []))
  let rewardsJ ← asList (← jsonGetD trajectory "rewards" (.arr []))
  let rewards ← rewardsJ.mapM asNum
  let finalAction ←
    match actions.getLast? with
    | some a => do pure (some (← jsonGetD a "action_type" (.str "unknown")))
    | none => pure none
  hostsCheck states
  return { num_states := states.length
           num_actions := actions.length
           num_rewards := rewards.length
           total_reward := if rewards.isEmpty then 0 else rewards.sum
           end_reason := endReason
           agent_name := agentName
           agent_role := agentRole
           outcome := ceOutcome rewards
           final_reward := rewards.getLast?
           final_action := finalAction }

/-- Global aggregates of `count_episodes.analyze_jsonl_files`
(`results['total_episodes']` and the `by_outcome` counters; the
`by_agent`/`by_role`/`by_end_reason`/`by_final_action` counters behave
identically and are not repeated here). -/
structure CEAgg where
  total_episodes : Nat
  wins : Nat
  losses : Nat
  no_actions : Nat
deriving DecidableEq

/-- Per-file aggregates (`file_stats`) of
`count_episodes.analyze_jsonl_files` (lines 103-109). -/
structure CEFileStats where
  episodes : Nat
  total_actions : Nat
  total_states : Nat
  total_reward : ℚ
deriving DecidableEq

def ceAggInit : CEAgg := ⟨0, 0, 0, 0⟩

def ceFileInit : CEFileStats := ⟨0, 0, 0, 0⟩

/-- One iteration of the per-line loop of
`count_episodes.analyze_jsonl_files` (lines 112-151), mirroring the
order of updates in the source: after a successful parse the episode
counters are incremented first, then `analyze_episode` runs, and only on
its success are the remaining aggregates updated.  Both exception
handlers leave the loop running. -/
def ceProcessLine (st : CEAgg × CEFileStats) (line : Except String JSON) :
    CEAgg × CEFileStats :=
  match line with
  | .error _ => st
  | .ok episode_data =>
    let st1 := ({ st.1 with total_episodes := st.1.total_episodes + 1 },
                { st.2 with episodes := st.2.episodes + 1 })
    match analyze_episode episode_data with
    | .error _ => st1
    | .ok s =>
      ({ st1.1 with
          wins := st1.1.wins + (if s.outcome = "win" then 1 else 0)
          losses := st1.1.losses + (if s.outcome = "loss" then 1 else 0)
          no_actions := st1.1.no_actions + (if s.outcome = "no_action" then 1 else 0) },
       { st1.2 with
          total_actions := st1.2.total_actions + s.num_actions
          total_states := st1.2.total_states + s.num_states
          total_reward := st1.2.total_reward + s.total_reward })

/-- Record of one episode reported by `find_short_losses` (the printed
block is condensed to the values deciding it; lines 30-56). -/
structure FSLRecord where
  num_actions : Nat
  final_reward : Option ℚ
  is_loss : Bool
  reported : Bool
deriving DecidableEq

/-- Lines 23-44 of `find_short_losses.py`: per-line analysis after a
successful parse; `none` means the episode was skipped for having no
actions.  The episode is reported (printed) when it is a loss with at
most `max_steps` actions. -/
def fslAnalyzeLine (maxSteps : Nat) (episode : JSON) :
    Except String (Option FSLRecord) := do
  let trajectory ← jsonGetD episode "trajectory" (.obj [])
  let actionsJ ← jsonGetD trajectory "actions" (.arr [])
  let rewardsJ ← jsonGetD trajectory "rewards" (.arr [])
  let _statesJ ← jsonGetD trajectory "states" (.arr [])
  let actions ← asList actionsJ
  if actions.length = 0 then return none
  let rewards ← asList rewardsJ
  let finalReward ←
    match rewards.getLast? with
    | none => pure (none : Option ℚ)
    | some rJ => do pure (some (← asNum rJ))
  let isLoss :=
    match finalReward with
    | none => false
    | some r => decide (r < 50)
  return some { num_actions := actions.length
                final_reward := finalReward
                is_loss := isLoss
                reported := isLoss && decide (actions.length ≤ maxSteps) }

/-- One iteration of the per-line loop of `find_short_losses`
(lines 17-62): the accumulator is the list of reported episodes; parse
and processing errors are caught and leave it unchanged. -/
def fslProcessLine (maxSteps : Nat) (acc : List FSLRecord)
    (line : Except String JSON) : List FSLRecord :=
  match line with
  | .error _ => acc
  | .ok episode =>
    match fslAnalyzeLine maxSteps episode with
    | .error _ => acc
    | .ok none => acc
    | .ok (some r) => if r.reported then acc ++ [r] else acc

/-- The episode-reading loop of `investigate_end_condition.main`
(lines 107-114): `episodes.append(json.loads(line))` with no exception
handler, so the first malformed line aborts the whole run.  A line is
represented by the outcome of `json.loads` on it (blank lines are
already skipped). -/
def investigateReadLines : List (Except String JSON) → Except String (List JSON)
  | [] => .ok []
  | l :: ls => do
      let j ← l
      let rest ← investigateReadLines ls
      return j :: rest

/-- A directory of input files: each path maps to the list of parse
outcomes of its non-blank lines.  A path that is absent models a
non-existent file. -/
abbrev FileSystem := List (String × List (Except String JSON))

/-- The file loop of `count_episodes.analyze_jsonl_files` (lines 96-153):
a missing file is reported as a warning and skipped (lines 98-100), all
other files are processed, each with fresh `file_stats`. -/
def ceRunFiles (fs : FileSystem) (paths : List String) :
    CEAgg × List CEFileStats :=
  paths.foldl
    (fun acc path =>
      match fs.lookup path with
      | none => acc
      | some lines =>
          let r := lines.foldl ceProcessLine (acc.1, ceFileInit)
          (r.1, acc.2 ++ [r.2]))
    (ceAggInit, [])

/-- The file loop of `summary.analyze_episodes` (lines 27-77): each file
is opened without an existence check, so a missing file raises an
uncaught `FileNotFoundError` and aborts the run. -/
def summaryRunFiles (stepLimit : Nat) (fs : FileSystem) (paths : List String) :
    Except String (List SummaryEpisode) :=
  paths.foldlM
    (fun acc path =>
      match fs.lookup path with
      | none => .error "FileNotFoundError"
      | some lines => .ok (lines.foldl (summaryProcessLine stepLimit) acc))
    []

/-- The file loop of `repeated_actions.analyze_repeated_actions`
(lines 80-148): like `summary.py`, it opens each file without an
existence check. -/
def raRunFiles (fs : FileSystem) (paths : List String) :
    Except String (List RepeatStats) :=
  paths.foldlM
    (fun acc path =>
      match fs.lookup path with
      | none => .error "FileNotFoundError"
      | some lines => .ok (lines.foldl raProcessLine acc))
    []

/-- The file loop of `find_short_losses.find_short_losses` (lines 13-62):
it also opens each file without an existence check. -/
def fslRunFiles (maxSteps : Nat) (fs : FileSystem) (paths : List String) :
    Except String (List FSLRecord) :=
  paths.foldlM
    (fun acc path =>
      match fs.lookup path with
      | none => .error "FileNotFoundError"
      | some lines => .ok (lines.foldl (fslProcessLine maxSteps) acc))
    []

/-- **C1** (corrected): the claimed equivalence fails in the
injectivity direction — `make_hashable` maps the empty mapping and the
empty sequence (structurally unequal values) to the same canonical key,
because both become the empty tuple. -/
theorem claim_C1_counterexample :
    make_hashable (.obj []) = make_hashable (.arr []) ∧
    ¬ StructEq (.obj []) (.arr []) ∧ ¬ StructEq (.arr []) (.obj []) := by
  refine ⟨rfl, ?_, ?_⟩ <;> simp [StructEq]

/-- **C1** (amended): on well-formed JSON values (mappings with unique
keys), structural equality implies equal canonical keys; the converse is
false (see the counterexample), so canonicalization is
equality-preserving but not injective up to structural equality. -/
theorem claim_C1 (a b : JSON) (hwf : WF a) (h : StructEq a b) :
    make_hashable a = make_hashable b :=
  make_hashable_eq_of_structEq a hwf b h

/-- **C1** witness: the amended theorem applied to the two orderings of
the mapping `{"a": 1, "b": 2}`. -/
theorem claim_C1_witness :
    make_hashable (.obj [("a", .int 1), ("b", .int 2)]) =
      make_hashable (.obj [("b", .int 2), ("a", .int 1)]) :=
  claim_C1 (.obj [("a", .int 1), ("b", .int 2)]) (.obj [("b", .int 2), ("a", .int 1)])
    (by constructor
        · decide
        · exact ⟨trivial, trivial, trivial⟩)
    (by exact ⟨rfl, ⟨.int 1, by simp, by simp [StructEq]⟩,
          ⟨.int 2, by simp, by simp [StructEq]⟩, trivial⟩)

/-- **C2** (confirmed): two JSON mappings holding the same key/value
pairs in different insertion order (with unique keys, as in any Python
dict) have the same canonical form. -/
theorem claim_C2 (xs ys : List (String × JSON)) (hperm : xs.Perm ys)
    (hnd : (xs.map Prod.fst).Nodup) :
    make_hashable (.obj xs) = make_hashable (.obj ys) := by
  have h1 : (mhPairs xs).Perm (mhPairs ys) := by
    rw [mhPairs_eq_map, mhPairs_eq_map]
    exact hperm.map _
  have h2 : ((mhPairs xs).map Prod.fst).Nodup := by
    rw [mhPairs_keys]
    exact hnd
  simp only [make_hashable]
  rw [sortPairs_eq_of_perm h1 h2]

/-- **C2** witness: the two orderings of `{"a": 1, "b": 2}`. -/
theorem claim_C2_witness :
    make_hashable (.obj [("b", .int 2), ("a", .int 1)]) =
      make_hashable (.obj [("a", .int 1), ("b", .int 2)]) :=
  claim_C2 [("b", .int 2), ("a", .int 1)] [("a", .int 1), ("b", .int 2)]
    (List.Perm.swap ("a", JSON.int 1) ("b", JSON.int 2) []) (by decide)

/-- The counts recorded by the action counter, one per distinct key. -/
theorem actionCounter_counts (actions : List JSON) :
    (actionCounter actions).map Prod.snd =
      (actionKeys actions).dedup.map (fun k => (actionKeys actions).count k) := by
  simp [actionCounter, List.map_map, Function.comp]

theorem actionCounter_length (actions : List JSON) :
    (actionCounter actions).length = (actionKeys actions).dedup.length := by
  simp [actionCounter]

/-- Filtering the counts is filtering the distinct keys by their count. -/
theorem counts_filter_eq (ks : List Canon) :
    ((ks.dedup.map (fun k => ks.count k)).filter (fun c => 1 < c)) =
      ((ks.dedup.filter (fun k => 1 < ks.count k)).map (fun k => ks.count k)) := by
  induction ks.dedup with
  | nil => rfl
  | cons k l ih =>
    by_cases h : 1 < ks.count k <;> simp [List.filter_cons, h, ih]

/-- The distinct keys with count above one, as a finset. -/
theorem repeated_keys_finset (ks : List Canon) :
    (ks.toFinset.filter (fun k => 1 < ks.count k)) =
      (ks.dedup.filter (fun k => 1 < ks.count k)).toFinset := by
  apply Finset.ext
  intro a
  simp [List.mem_filter, List.mem_dedup]

/-- **C3** (confirmed): the per-episode repetition counter records the
sequence length as `total_actions`, the number of distinct canonical
keys as `unique_actions`, the number of distinct keys occurring more
than once as `num_repeated_actions`, and the sum of `count - 1` over
those keys as `total_repetitions`; in particular the two orderings of
`{"a": 1, "b": 2}` count as one repeated action. -/
theorem claim_C3 :
    (∀ (actions : List JSON) (w : Bool), actions ≠ [] →
      (repeatStatsOf actions w).total_actions = actions.length ∧
      (repeatStatsOf actions w).unique_actions =
        (actions.map action_to_hashable).toFinset.card ∧
      (repeatStatsOf actions w).num_repeated_actions =
        ((actions.map action_to_hashable).toFinset.filter
          (fun k => 1 < (actions.map action_to_hashable).count k)).card ∧
      (repeatStatsOf actions w).total_repetitions =
        ∑ k ∈ (actions.map action_to_hashable).toFinset.filter
          (fun k => 1 < (actions.map action_to_hashable).count k),
            ((actions.map action_to_hashable).count k - 1)) ∧
    (repeatStatsOf [JSON.obj [("a", .int 1), ("b", .int 2)],
                    JSON.obj [("b", .int 2), ("a", .int 1)]] false).total_actions = 2 ∧
    (repeatStatsOf [JSON.obj [("a", .int 1), ("b", .int 2)],
                    JSON.obj [("b", .int 2), ("a", .int 1)]] false).unique_actions = 1 ∧
    (repeatStatsOf [JSON.obj [("a", .int 1), ("b", .int 2)],
                    JSON.obj [("b", .int 2), ("a", .int 1)]] false).num_repeated_actions
      = 1 ∧
    (repeatStatsOf [JSON.obj [("a", .int 1), ("b", .int 2)],
                    JSON.obj [("b", .int 2), ("a", .int 1)]] false).total_repetitions
      = 1 := by
  refine ⟨?_, by decide, by decide, by decide, by decide⟩
  intro actions w _
  set ks := actions.map action_to_hashable with hks
  have hkeys : actionKeys actions = ks := rfl
  have hnodup : (ks.dedup.filter (fun k => 1 < ks.count k)).Nodup :=
    (List.nodup_dedup ks).filter _
  refine ⟨rfl, ?_, ?_, ?_⟩
  · simp only [repeatStatsOf, actionCounter_length, hkeys]
    rw [List.card_toFinset]
  · simp only [repeatStatsOf, actionCounter_counts, hkeys, counts_filter_eq,
      repeated_keys_finset]
    rw [List.toFinset_card_of_nodup hnodup, List.length_map]
  · simp only [repeatStatsOf, actionCounter_counts, hkeys, counts_filter_eq,
      repeated_keys_finset]
    rw [List.sum_toFinset _ hnodup, List.map_map]
    rfl

/-- **C3** witness: the universally quantified part applied to the
spec's example sequence. -/
theorem claim_C3_witness :
    (repeatStatsOf [JSON.obj [("a", .int 1), ("b", .int 2)],
                    JSON.obj [("b", .int 2), ("a", .int 1)]] false).unique_actions =
      ([JSON.obj [("a", .int 1), ("b", .int 2)],
        JSON.obj [("b", .int 2), ("a", .int 1)]].map action_to_hashable).toFinset.card :=
  (claim_C3.1 [JSON.obj [("a", .int 1), ("b", .int 2)],
               JSON.obj [("b", .int 2), ("a", .int 1)]] false
    (List.cons_ne_nil _ _)).2.1

theorem length_le_sum_of_one_le {cs : List ℕ} (h : ∀ c ∈ cs, 1 ≤ c) :
    cs.length ≤ cs.sum := by
  induction cs with
  | nil => simp
  | cons c cs ih =>
    have hc : 1 ≤ c := h c (by simp)
    have hrest : cs.length ≤ cs.sum := ih (fun x hx => h x (by simp [hx]))
    simp only [List.length_cons, List.sum_cons]
    omega

/-- Summing `count - 1` over the counts above one equals the total
count minus the number of entries, when every count is at least one. -/
theorem filtered_reps_eq {cs : List ℕ} (h : ∀ c ∈ cs, 1 ≤ c) :
    ((cs.filter (fun c => 1 < c)).map (fun c => c - 1)).sum =
      cs.sum - cs.length := by
  induction cs with
  | nil => simp
  | cons c cs ih =>
    have htail : ∀ x ∈ cs, 1 ≤ x := fun x hx => h x (List.mem_cons_of_mem c hx)
    have hc : 1 ≤ c := h c (List.mem_cons_self c cs)
    have hrest := ih htail
    have hlen := length_le_sum_of_one_le htail
    by_cases h1 : 1 < c <;>
      simp [List.filter_cons, h1] <;>
      omega

/-- Every count of the action counter is at least one. -/
theorem actionCounter_counts_pos (actions : List JSON) :
    ∀ c ∈ (actionCounter actions).map Prod.snd, 1 ≤ c := by
  intro c hc
  rw [actionCounter_counts] at hc
  rcases List.mem_map.mp hc with ⟨k, hk, rfl⟩
  exact List.count_pos_iff.mpr (List.mem_dedup.mp hk)

/-- **C10** (confirmed): every repeated-actions record satisfies
`total_repetitions = total_actions - unique_actions`, and every loss in
the summary classification carries exactly one of the two loss labels,
decided by comparing the action count with the step-limit threshold. -/
theorem claim_C10 :
    (∀ (actions : List JSON) (w : Bool),
      (repeatStatsOf actions w).total_repetitions =
        (repeatStatsOf actions w).total_actions -
          (repeatStatsOf actions w).unique_actions) ∧
    (∀ (stepLimit numActions numStates : Nat) (rewards : List ℚ)
        (fa an ar : Option JSON),
      ((summaryClassify stepLimit numActions numStates rewards fa an ar).outcome = "win" ∨
       (summaryClassify stepLimit numActions numStates rewards fa an ar).outcome = "loss") ∧
      ((summaryClassify stepLimit numActions numStates rewards fa an ar).outcome = "loss" →
        ((summaryClassify stepLimit numActions numStates rewards fa an ar).loss_type =
            some "step_limit" ↔ stepLimit ≤ numActions) ∧
        ((summaryClassify stepLimit numActions numStates rewards fa an ar).loss_type =
            some "invalid_actions" ↔ numActions < stepLimit)) ∧
      ((summaryClassify stepLimit numActions numStates rewards fa an ar).outcome = "win" →
        (summaryClassify stepLimit numActions numStates rewards fa an ar).loss_type =
          none)) := by
  constructor
  · intro actions w
    show ((((actionCounter actions).map Prod.snd).filter (fun c => 1 < c)).map
        (fun c => c - 1)).sum = actions.length - (actionCounter actions).length
    rw [filtered_reps_eq (actionCounter_counts_pos actions)]
    rw [actionCounter_counts, actionCounter_length]
    rw [List.sum_map_count_dedup_eq_length, List.length_map]
    simp [actionKeys]
  · intro stepLimit numActions numStates rewards fa an ar
    by_cases hw : summaryIsWin rewards
    · simp [summaryClassify, hw]
    · by_cases hs : stepLimit ≤ numActions
      · simp [summaryClassify, hw, hs]
      · simp [summaryClassify, hw, hs]
        omega

/-- **C10** witness: the invariant on a concrete episode with one
repeated action, and the loss labels at a concrete threshold. -/
theorem claim_C10_witness :
    ((repeatStatsOf [JSON.int 7, JSON.int 7, JSON.int 8] false).total_repetitions =
      (repeatStatsOf [JSON.int 7, JSON.int 7, JSON.int 8] false).total_actions -
        (repeatStatsOf [JSON.int 7, JSON.int 7, JSON.int 8] false).unique_actions) ∧
    ((summaryClassify 100 3 0 [(0 : ℚ)] none none none).loss_type =
        some "invalid_actions" ↔ 3 < 100) :=
  ⟨claim_C10.1 [JSON.int 7, JSON.int 7, JSON.int 8] false,
   ((claim_C10.2 100 3 0 [(0 : ℚ)] none none none).2.1 (by decide)).2⟩

/-- Per-episode record built by
`check_all_early_terminations.check_early_terminations` (lines 40-60):
the episode info plus its category — win, early termination (non-win
below the step threshold) or normal loss. -/
structure CAETInfo where
  num_actions : Nat
  final_reward : Option ℚ
  total_reward : ℚ
  end_reason : Option JSON
  final_action : Option JSON
  category : String

/-- `check_all_early_terminations.py` line 44:
`is_win = final_reward is not None and final_reward >= 50` (over an
already-numeric rewards list). -/
def caetIsWin (rewards : List ℚ) : Bool :=
  match rewards.getLast? with
  | none => false
  | some r => decide (50 ≤ r)

/-- Lines 29-60 of `check_all_early_terminations.py`: per-line analysis
after a successful parse; `none` means the episode was skipped for
having no actions (line 36). -/
def caetAnalyzeLine (stepThreshold : Nat) (episode : JSON) :
    Except String (Option CAETInfo) := do
  let trajectory ← jsonGetD episode "trajectory" (.obj [])
  let actionsJ ← jsonGetD trajectory "actions" (.arr [])
  let rewardsJ ← jsonGetD trajectory "rewards" (.arr [])
  let actions ← asList actionsJ
  if actions.length = 0 then return none
  let rewards ← asList rewardsJ
  let endReason ← jsonGet episode "end_reason"
  let finalReward ←
    match rewards.getLast? with
    | none => pure (none : Option ℚ)
    | some rJ => do pure (some (← asNum rJ))
  let isWin :=
    match finalReward with
    | none => false
    | some r => decide (50 ≤ r)
  let isEarly := (!isWin) && decide (actions.length < stepThreshold)
  let sums ← rewards.mapM asNum
  let totalReward := if rewards.isEmpty then 0 else sums.sum
  let finalAction ←
    match actions.getLast? with
    | some a => jsonGet a "action_type"
    | none => pure none
  return some { num_actions := actions.length
                final_reward := finalReward
                total_reward := totalReward
                end_reason := endReason
                final_action := finalAction
                category :=
                  if isWin then "win" else if isEarly then "early" else "loss" }

/-- One iteration of the per-line loop of
`check_all_early_terminations.check_early_terminations` (lines 23-66):
the accumulator is the list of classified episodes; parse and processing
errors are caught and leave it unchanged. -/
def caetProcessLine (stepThreshold : Nat) (acc : List CAETInfo)
    (line : Except String JSON) : List CAETInfo :=
  match line with
  | .error _ => acc
  | .ok episode =>
    match caetAnalyzeLine stepThreshold episode with
    | .error _ => acc
    | .ok none => acc
    | .ok (some info) => acc ++ [info]

/-- The file loop of `check_all_early_terminations.check_early_terminations`
(lines 18-66): each file is opened without an existence check, so a
missing file raises an uncaught `FileNotFoundError` and aborts the
run. -/
def caetRunFiles (stepThreshold : Nat) (fs : FileSystem) (paths : List String) :
    Except String (List CAETInfo) :=
  paths.foldlM
    (fun acc path =>
      match fs.lookup path with
      | none => .error "FileNotFoundError"
      | some lines => .ok (lines.foldl (caetProcessLine stepThreshold) acc))
    []

/-- The per-file counters of `analyze_jsonl.analyze_jsonl_file` that the
properties mention (lines 87-89; the schema table built alongside them
adds no further failure mode). -/
structure AJState where
  line_count : Nat
  error_count : Nat
deriving DecidableEq

/-- `analyze_jsonl.analyze_structure(obj)` starts with `obj.items()`:
`AttributeError` unless the parsed line is a dict.  The recursive schema
walk below the top level only dispatches on `isinstance` and cannot
raise. -/
def analyzeStructureCheck : JSON → Except String Unit
  | .obj _ => .ok ()
  | _ => .error "AttributeError"

/-- One iteration of the per-line loop of
`analyze_jsonl.analyze_jsonl_file` (lines 92-114): only
`json.JSONDecodeError` is caught there, counted in `error_count`
(reported for the first five), and the loop continues; a parsed line
that fails the schema walk raises out of the whole file (caught per
file in `main`). -/
def ajProcessLine (st : AJState) (line : Except String JSON) :
    Except String AJState :=
  match line with
  | .error _ => .ok { st with error_count := st.error_count + 1 }
  | .ok obj => do
      let st1 := { st with line_count := st.line_count + 1 }
      analyzeStructureCheck obj
      return st1

/-- `analyze_jsonl.main` (lines 165-172): each file is analyzed inside a
per-file handler catching any exception, so a missing file (the
uncaught `FileNotFoundError` from `open`) or a mid-file failure is
reported and the remaining files still proceed.  `none` records a file
whose analysis was aborted by the handler. -/
def ajRunFiles (fs : FileSystem) (paths : List String) :
    List (String × Option AJState) :=
  paths.map (fun path =>
    (path,
     match fs.lookup path with
     | none => none
     | some lines =>
         match lines.foldlM ajProcessLine ⟨0, 0⟩ with
         | .error _ => none
         | .ok st => some st))

/-- `json_to_csv.outcome` (lines 32-33): the CSV outcome column is
decided solely by the record's `end_reason`. -/
def jtc_outcome (end_reason : String) : String :=
  if end_reason == "AgentStatus.Success" then "win" else "fail"

/-- One row of the CSV written by `json_to_csv.main`. -/
structure JTCRow where
  network : Int
  episode : Int
  outcome : String
deriving DecidableEq

/-- Python `x[k]` subscription as used by `json_to_csv` (lines 46-47):
`KeyError` when the key is missing, `TypeError` when `x` is not a
dict. -/
def jsonIndex (j : JSON) (k : String) : Except String JSON :=
  match j with
  | .obj l =>
      match (l.find? (fun p => p.1 == k)).map Prod.snd with
      | some v => .ok v
      | none => .error "KeyError"
  | _ => .error "TypeError"

/-- The row built by `json_to_csv.main` (lines 44-49) for one episode
record: `ep["episode"]` must be a number (it is added to the offset; a
non-integer raises), and the outcome is `jtc_outcome` of the record's
`end_reason` (a non-string `end_reason` compares unequal to the success
constant and yields "fail").  The trajectory and rewards of the record
are never read. -/
def jtcRowOf (network offset : Int) (ep : JSON) : Except String JTCRow := do
  let epNumJ ← jsonIndex ep "episode"
  let epNum ←
    match epNumJ with
    | .int n => Except.ok n
    | _ => Except.error "TypeError"
  let erJ ← jsonIndex ep "end_reason"
  let oc :=
    match erJ with
    | .str s => jtc_outcome s
    | _ => "fail"
  return { network := network, episode := epNum + offset, outcome := oc }

/-- The message printed by `count_episodes.py` line 148 for a malformed
line. -/
def ceParseMsg (lineNum : Nat) (filepath err : String) : String :=
  "Error parsing line " ++ toString lineNum ++ " in " ++ filepath ++ ": " ++ err

/-- The message printed by `repeated_actions.py` line 146 for a
malformed line. -/
def raParseMsg (lineNum : Nat) (filepath err : String) : String :=
  "Error parsing line " ++ toString lineNum ++ " in " ++ filepath ++ ": " ++ err

/-- The message printed by `find_short_losses.py` line 59 for a
malformed line. -/
def fslParseMsg (lineNum : Nat) (filepath err : String) : String :=
  "Error parsing line " ++ toString lineNum ++ " in " ++ filepath ++ ": " ++ err

/-- The message printed by `summary.py` line 76 for a malformed line:
it names the file but carries no line number. -/
def summaryParseMsg (filepath err : String) : String :=
  "Error parsing line in " ++ filepath ++ ": " ++ err

/-- The message printed by `check_all_early_terminations.py` line 64
for a malformed line: it carries the line number but no file. -/
def caetParseMsg (lineNum : Nat) (err : String) : String :=
  "Error parsing line " ++ toString lineNum ++ ": " ++ err

/-- The message printed by `analyze_jsonl.py` line 113 for a malformed
line: it carries the line number but no file. -/
def ajParseMsg (lineNum : Nat) (err : String) : String :=
  "Error on line " ++ toString lineNum ++ ": " ++ err

/-- **C4** (corrected): `json_to_csv.py` also classifies outcomes, but
from `end_reason` alone — a record whose final reward is 50 classifies
as "fail" when its `end_reason` is not the success constant, and a
record whose final reward is 0 classifies as "win" when it is, so the
inclusive-50 final-reward rule does not hold in every script that
classifies outcomes. -/
theorem claim_C4_counterexample :
    (jtcRowOf 1 0 (JSON.obj
        [("episode", JSON.int 1),
         ("end_reason", JSON.str "AgentStatus.TimeoutReached"),
         ("trajectory", JSON.obj [("rewards", JSON.arr [JSON.int 50])])])).map
      (fun row => row.outcome) = .ok "fail" ∧
    (jtcRowOf 1 0 (JSON.obj
        [("episode", JSON.int 1),
         ("end_reason", JSON.str "AgentStatus.Success"),
         ("trajectory", JSON.obj [("rewards", JSON.arr [JSON.int 0])])])).map
      (fun row => row.outcome) = .ok "win" :=
  ⟨rfl, rfl⟩

/-- **C4** (amended): with a non-empty rewards list, the five scripts
that classify outcomes from the trajectory — `summary.py`,
`count_episodes.py`, `repeated_actions.py`, `find_short_losses.py` and
`check_all_early_terminations.py` — decide by the final reward with an
inclusive boundary at 50 (exactly 50 is a win, strictly below 50 a
loss/non-win); `json_to_csv.py` instead derives its outcome column
solely from `end_reason == "AgentStatus.Success"`, ignoring rewards. -/
theorem claim_C4 (rewards : List ℚ) (r : ℚ) (hlast : rewards.getLast? = some r) :
    (r = 50 →
      summaryIsWin rewards = true ∧ ceOutcome rewards = "win" ∧
      raIsWin rewards = true ∧ fslIsLoss rewards = false ∧
      caetIsWin rewards = true) ∧
    (r < 50 →
      summaryIsWin rewards = false ∧ ceOutcome rewards = "loss" ∧
      raIsWin rewards = false ∧ fslIsLoss rewards = true ∧
      caetIsWin rewards = false) ∧
    (∀ er : String, jtc_outcome er = "win" ↔ er = "AgentStatus.Success") := by
  refine ⟨?_, ?_, ?_⟩
  · rintro rfl
    refine ⟨?_, ?_, ?_, ?_, ?_⟩ <;>
      simp [summaryIsWin, ceOutcome, raIsWin, fslIsLoss, caetIsWin, hlast]
  · intro hr
    have h50 : ¬ (50 ≤ r) := not_le.mpr hr
    refine ⟨?_, ?_, ?_, ?_, ?_⟩ <;>
      simp [summaryIsWin, ceOutcome, raIsWin, fslIsLoss, caetIsWin, hlast, h50, hr]
  · intro er
    by_cases her : er = "AgentStatus.Success" <;> simp [jtc_outcome, her]

/-- **C4** witness: final reward exactly 50 (win in all five
trajectory-classifying scripts) and 49.9 (loss in all five). -/
theorem claim_C4_witness :
    (summaryIsWin [(50 : ℚ)] = true ∧ ceOutcome [(50 : ℚ)] = "win" ∧
      raIsWin [(50 : ℚ)] = true ∧ fslIsLoss [(50 : ℚ)] = false ∧
      caetIsWin [(50 : ℚ)] = true) ∧
    (summaryIsWin [(499 / 10 : ℚ)] = false ∧ ceOutcome [(499 / 10 : ℚ)] = "loss" ∧
      raIsWin [(499 / 10 : ℚ)] = false ∧ fslIsLoss [(499 / 10 : ℚ)] = true ∧
      caetIsWin [(499 / 10 : ℚ)] = false) :=
  ⟨(claim_C4 [(50 : ℚ)] 50 rfl).1 rfl,
   (claim_C4 [(499 / 10 : ℚ)] (499 / 10) rfl).2.1 (by norm_num)⟩

/-- **C5** (corrected): `count_episodes.analyze_episode` does not skip
zero-action episodes — an episode with `trajectory.actions == []` and a
negative-or-low final reward is classified and counted as a loss. -/
theorem claim_C5_counterexample :
    (analyze_episode (JSON.obj [("trajectory", JSON.obj
        [("actions", JSON.arr []), ("rewards", JSON.arr [JSON.int 0])])])).map
      (fun s => s.outcome) = .ok "loss" ∧
    (ceProcessLine (ceAggInit, ceFileInit)
      (.ok (JSON.obj [("trajectory", JSON.obj
        [("actions", JSON.arr []), ("rewards", JSON.arr [JSON.int 0])])]))).1.losses
      = 1 := by
  exact ⟨rfl, rfl⟩

/-- **C5** (amended): `summary.py`, `repeated_actions.py`,
`find_short_losses.py` and `check_all_early_terminations.py` skip an
episode whose `trajectory.actions` is empty before any win/loss
classification; `count_episodes.py` does not skip it — its
classification depends only on the rewards, labelling the episode
`no_action` exactly when the rewards are also empty (and win or loss
otherwise, as the counterexample shows). -/
theorem claim_C5 (episode traj aj : JSON) (stepLimit maxSteps threshold : Nat)
    (htraj : jsonGetD episode "trajectory" (.obj []) = .ok traj)
    (hact : jsonGetD traj "actions" (.arr []) = .ok aj)
    (hnil : asList aj = .ok []) :
    summaryAnalyzeLine stepLimit episode = .ok none ∧
    raAnalyzeLine episode = .ok none ∧
    fslAnalyzeLine maxSteps episode = .ok none ∧
    caetAnalyzeLine threshold episode = .ok none ∧
    ceOutcome ([] : List ℚ) = "no_action" := by
  cases traj with
  | obj l =>
      refine ⟨?_, ?_, ?_, ?_, rfl⟩
      · simp only [summaryAnalyzeLine, htraj, hact, hnil, except_bind_ok]
        simp [jsonGetD, jsonGet, Except.map, except_bind_ok, hnil, except_pure_def]
      · simp only [raAnalyzeLine, htraj, hact, hnil, except_bind_ok]
        simp [jsonGetD, jsonGet, Except.map, except_bind_ok, hnil, except_pure_def]
      · simp only [fslAnalyzeLine, htraj, hact, hnil, except_bind_ok]
        simp [jsonGetD, jsonGet, Except.map, except_bind_ok, hnil, except_pure_def]
      · simp only [caetAnalyzeLine, htraj, hact, hnil, except_bind_ok]
        simp [jsonGetD, jsonGet, Except.map, except_bind_ok, hnil, except_pure_def]
  | null => simp [jsonGetD, jsonGet, Except.map] at hact
  | bool b => simp [jsonGetD, jsonGet, Except.map] at hact
  | int n => simp [jsonGetD, jsonGet, Except.map] at hact
  | float q => simp [jsonGetD, jsonGet, Except.map] at hact
  | str s => simp [jsonGetD, jsonGet, Except.map] at hact
  | arr xs => simp [jsonGetD, jsonGet, Except.map] at hact

/-- **C5** witness: a concrete zero-action episode is skipped by the
four scripts that skip. -/
theorem claim_C5_witness :
    summaryAnalyzeLine 100
        (JSON.obj [("trajectory", JSON.obj [("actions", JSON.arr [])])]) = .ok none ∧
    raAnalyzeLine
        (JSON.obj [("trajectory", JSON.obj [("actions", JSON.arr [])])]) = .ok none ∧
    fslAnalyzeLine 50
        (JSON.obj [("trajectory", JSON.obj [("actions", JSON.arr [])])]) = .ok none ∧
    caetAnalyzeLine 95
        (JSON.obj [("trajectory", JSON.obj [("actions", JSON.arr [])])]) = .ok none ∧
    ceOutcome ([] : List ℚ) = "no_action" :=
  claim_C5 (JSON.obj [("trajectory", JSON.obj [("actions", JSON.arr [])])])
    (JSON.obj [("actions", JSON.arr [])]) (JSON.arr []) 100 50 95 rfl rfl rfl

/-- **C7** (corrected): the reading loop of
`investigate_end_condition.main` has no per-line exception handler — a
malformed first line aborts the run even though a well-formed line
follows, contradicting the claim that a parse error is never fatal in
any script. -/
theorem claim_C7_counterexample :
    investigateReadLines [.error "Expecting value", .ok JSON.null] =
      .error "Expecting value" := rfl

/-- **C7** (amended): in `summary.py`, `count_episodes.py`,
`repeated_actions.py`, `find_short_losses.py`,
`check_all_early_terminations.py` and `analyze_jsonl.py` a malformed
JSON line is caught per line and the loop continues — the accumulated
results are unchanged, except that `analyze_jsonl` counts the line in
`error_count`; the messages of `count_episodes`, `repeated_actions` and
`find_short_losses` carry both the line number and the file, the
`summary.py` message carries the file, and the
`check_all_early_terminations` and `analyze_jsonl` messages carry the
line number; in `investigate_end_condition.py` the first malformed line
is fatal to the whole run. -/
theorem claim_C7 :
    (∀ (stepLimit : Nat) (acc : List SummaryEpisode) (e : String),
      summaryProcessLine stepLimit acc (.error e) = acc) ∧
    (∀ (st : CEAgg × CEFileStats) (e : String), ceProcessLine st (.error e) = st) ∧
    (∀ (acc : List RepeatStats) (e : String), raProcessLine acc (.error e) = acc) ∧
    (∀ (maxSteps : Nat) (acc : List FSLRecord) (e : String),
      fslProcessLine maxSteps acc (.error e) = acc) ∧
    (∀ (threshold : Nat) (acc : List CAETInfo) (e : String),
      caetProcessLine threshold acc (.error e) = acc) ∧
    (∀ (st : AJState) (e : String),
      ajProcessLine st (.error e) =
        .ok { st with error_count := st.error_count + 1 }) ∧
    (∀ (n : Nat) (f e : String), ∃ pre mid post,
      ceParseMsg n f e = pre ++ toString n ++ mid ++ f ++ post) ∧
    (∀ (n : Nat) (f e : String), ∃ pre mid post,
      raParseMsg n f e = pre ++ toString n ++ mid ++ f ++ post) ∧
    (∀ (n : Nat) (f e : String), ∃ pre mid post,
      fslParseMsg n f e = pre ++ toString n ++ mid ++ f ++ post) ∧
    (∀ (f e : String), ∃ pre post, summaryParseMsg f e = pre ++ f ++ post) ∧
    (∀ (n : Nat) (e : String), ∃ pre post,
      caetParseMsg n e = pre ++ toString n ++ post) ∧
    (∀ (n : Nat) (e : String), ∃ pre post,
      ajParseMsg n e = pre ++ toString n ++ post) ∧
    (∀ (e : String) (ls : List (Except String JSON)),
      investigateReadLines (.error e :: ls) = .error e) :=
  ⟨fun _ _ _ => rfl, fun _ _ => rfl, fun _ _ => rfl, fun _ _ _ => rfl,
   fun _ _ _ => rfl, fun _ _ => rfl,
   fun n f e => ⟨"Error parsing line ", " in ", ": " ++ e,
     String.append_assoc _ ": " e⟩,
   fun n f e => ⟨"Error parsing line ", " in ", ": " ++ e,
     String.append_assoc _ ": " e⟩,
   fun n f e => ⟨"Error parsing line ", " in ", ": " ++ e,
     String.append_assoc _ ": " e⟩,
   fun f e => ⟨"Error parsing line in ", ": " ++ e,
     String.append_assoc _ ": " e⟩,
   fun n e => ⟨"Error parsing line ", ": " ++ e,
     String.append_assoc _ ": " e⟩,
   fun n e => ⟨"Error on line ", ": " ++ e,
     String.append_assoc _ ": " e⟩,
   fun _ _ => rfl⟩

/-- **C9** (corrected): only `count_episodes.py` checks for a missing
input file; `summary.py` aborts with `FileNotFoundError` on the same
path list instead of skipping it, as do `repeated_actions.py` and
`find_short_losses.py`. -/
theorem claim_C9_counterexample :
    summaryRunFiles 100 [("good", [])] ["missing", "good"] =
      .error "FileNotFoundError" ∧
    (ceRunFiles [("good", [])] ["missing", "good"]).2.length = 1 :=
  ⟨rfl, rfl⟩

/-- **C9** (amended): `count_episodes.py` warns about a non-existent
input file, skips it and processes the remaining files, and
`analyze_jsonl.py` also proceeds past it (its `main` catches the
per-file `FileNotFoundError`, reports it and moves on); `summary.py`,
`repeated_actions.py`, `find_short_losses.py` and
`check_all_early_terminations.py` raise an uncaught `FileNotFoundError`
and abort the run. -/
theorem claim_C9 (fs : FileSystem) (path : String) (rest : List String)
    (hmiss : fs.lookup path = none) (stepLimit maxSteps threshold : Nat) :
    ceRunFiles fs (path :: rest) = ceRunFiles fs rest ∧
    ajRunFiles fs (path :: rest) = (path, none) :: ajRunFiles fs rest ∧
    summaryRunFiles stepLimit fs (path :: rest) = .error "FileNotFoundError" ∧
    raRunFiles fs (path :: rest) = .error "FileNotFoundError" ∧
    fslRunFiles maxSteps fs (path :: rest) = .error "FileNotFoundError" ∧
    caetRunFiles threshold fs (path :: rest) = .error "FileNotFoundError" := by
  refine ⟨?_, ?_, ?_, ?_, ?_, ?_⟩
  · simp [ceRunFiles, hmiss]
  · simp [ajRunFiles, hmiss]
  · simp [summaryRunFiles, hmiss, List.foldlM_cons, except_bind_err]
  · simp [raRunFiles, hmiss, List.foldlM_cons, except_bind_err]
  · simp [fslRunFiles, hmiss, List.foldlM_cons, except_bind_err]
  · simp [caetRunFiles, hmiss, List.foldlM_cons, except_bind_err]

/-- **C9** witness: the amended theorem at a concrete directory holding
only `good`. -/
theorem claim_C9_witness :
    ceRunFiles [("good", [])] ["missing", "good"] =
      ceRunFiles [("good", [])] ["good"] ∧
    ajRunFiles [("good", [])] ["missing", "good"] =
      ("missing", none) :: ajRunFiles [("good", [])] ["good"] ∧
    summaryRunFiles 100 [("good", [])] ["missing", "good"] =
      .error "FileNotFoundError" ∧
    raRunFiles [("good", [])] ["missing", "good"] = .error "FileNotFoundError" ∧
    fslRunFiles 50 [("good", [])] ["missing", "good"] = .error "FileNotFoundError" ∧
    caetRunFiles 95 [("good", [])] ["missing", "good"] =
      .error "FileNotFoundError" :=
  claim_C9 [("good", [])] "missing" ["good"] rfl 100 50 95

/-- **C6** (confirmed): the case-wise contract of `make_hashable`:
primitives map to themselves; a sequence maps to the tuple of the
canonical forms of its elements in order; a mapping maps to the tuple of
`(key, canonical(value))` pairs — exactly the pairs of the mapping, with
canonicalized values, arranged in ascending key order. -/
theorem claim_C6 :
    make_hashable .null = .null ∧
    (∀ b, make_hashable (.bool b) = .bool b) ∧
    (∀ n, make_hashable (.int n) = .int n) ∧
    (∀ q, make_hashable (.float q) = .float q) ∧
    (∀ s, make_hashable (.str s) = .str s) ∧
    (∀ xs : List JSON,
      make_hashable (.arr xs) = Canon.ofList (xs.map make_hashable)) ∧
    (∀ xs : List (String × JSON),
      make_hashable (.obj xs) =
        Canon.ofList ((sortPairs (mhPairs xs)).map
          (fun p => Canon.ofList [.str p.1, p.2])) ∧
      (sortPairs (mhPairs xs)).Perm
        (xs.map (fun p => (p.1, make_hashable p.2))) ∧
      List.Sorted pairLE (sortPairs (mhPairs xs))) := by
  refine ⟨rfl, fun _ => rfl, fun _ => rfl, fun _ => rfl, fun _ => rfl, ?_, ?_⟩
  · intro xs
    simp only [make_hashable, mhList_eq_map]
  · intro xs
    refine ⟨rfl, ?_, List.sorted_insertionSort pairLE (mhPairs xs)⟩
    rw [← mhPairs_eq_map]
    exact List.perm_insertionSort pairLE (mhPairs xs)
